import Mathlib

/- Shallow embedding of the ESP32 UART-to-Bluetooth proxy firmware
   (src/esp32_bt_proxy.ino): the binding record, the persistent store,
   command parsing and validation, and the steady-state loop events.

   Strings and byte buffers are modelled as `List Nat` of byte values;
   a C string is the bytes before the first NUL (`cstr`).  Diagnostic
   output is modelled as a list of events (`Ev`), one per `Serial`
   message relevant to the claims. -/

namespace BtProxy

/-- Byte list of an ASCII Lean string literal. -/
def str (s : String) : List Nat := s.data.map Char.toNat

/-- C-string view of a byte buffer: the bytes before the first NUL. -/
def cstr (l : List Nat) : List Nat := l.takeWhile (fun b => b != 0)

/-- C `tolower` restricted to ASCII, as applied by `validateAddr`. -/
def lcase (b : Nat) : Nat := if 65 ≤ b ∧ b ≤ 90 then b + 32 else b

/-- C `toupper` restricted to ASCII, as applied by `parseCommand`. -/
def ucase (b : Nat) : Nat := if 97 ≤ b ∧ b ≤ 122 then b - 32 else b

/-- Lower-case every byte of a string (the per-character loops of
`validateAddr`). -/
def lowerStr (l : List Nat) : List Nat := l.map lcase

/-- Decimal-digit test of `setBindPin`: ASCII codes 48..57. -/
def isDigitB (b : Nat) : Bool := 48 ≤ b && b ≤ 57

/-- Value of one hexadecimal digit byte, if it is one. -/
def hexVal (b : Nat) : Option Nat :=
  if 48 ≤ b ∧ b ≤ 57 then some (b - 48)
  else if 97 ≤ b ∧ b ≤ 102 then some (b - 87)
  else if 65 ≤ b ∧ b ≤ 70 then some (b - 55)
  else none

/-- Value of a two-hex-digit byte group. -/
def hexPair (hi lo : Nat) : Option Nat :=
  match hexVal hi, hexVal lo with
  | some h, some l => some (h * 16 + l)
  | _, _ => none

/-- Lower-case hexadecimal digit byte of a value below 16. -/
def hexDig (d : Nat) : Nat := if d < 10 then 48 + d else 87 + d

/-- Two lower-case hexadecimal digit bytes of one address byte. -/
def byteHex (n : Nat) : List Nat := [hexDig (n / 16 % 16), hexDig (n % 16)]

/-- Modelled from the spec: the external hardware-address parser (the
`BTAddress` string constructor of the wireless-stack collaborator, not
part of this repository's sources).  It accepts exactly the canonical
form `hh:hh:hh:hh:hh:hh` (17 bytes, case-insensitive hex digits, `:`
separators) and fails on anything else.  `58` is the byte of `:`. -/
def parseAddr : List Nat → Option (List Nat)
  | [a1, a2, 58, b1, b2, 58, c1, c2, 58, d1, d2, 58, e1, e2, 58, g1, g2] =>
    match hexPair a1 a2, hexPair b1 b2, hexPair c1 c2,
          hexPair d1 d2, hexPair e1 e2, hexPair g1 g2 with
    | some a, some b, some c, some d, some e, some g => some [a, b, c, d, e, g]
    | _, _, _, _, _, _ => none
  | _ => none

/-- Modelled from the spec: the address bytes held by a `BTAddress`
constructed from a string.  On a malformed string the collaborator's
constructor leaves the bytes unset; they are modelled as zero.  The
value of `validateAddr` is insensitive to this choice, because the
renderer below always produces a canonical 17-byte string: a malformed
input can never equal any rendering. -/
def btParse (s : List Nat) : List Nat := (parseAddr s).getD (List.replicate 6 0)

/-- Modelled from the spec: the external address renderer (`toString` of
the collaborator), producing the canonical lower-case form with `:`
separators. -/
def btToString (bs : List Nat) : List Nat :=
  ((bs.map byteHex).intersperse [58]).flatten

/-- Validation of a MAC address argument (source `validateAddr`, lines
444-457): lower-case the argument, parse it, render it back, lower-case
the rendering, and compare with the lower-cased argument. -/
def validateAddr (arg : List Nat) : Bool :=
  let newAddr := lowerStr (cstr arg)
  let checkStr := lowerStr (btToString (btParse newAddr))
  checkStr == newAddr

/-- The binding record (source `BindRecord_t`): validity flag, 6-byte
remote address, 9-byte remote pin buffer. -/
structure BindRecord where
  valid : Bool
  remoteAddr : List Nat
  remotePin : List Nat
  deriving DecidableEq, Repr

/-- The persistent namespace `BTPROXY` of the store collaborator: the two
keys the firmware uses, plus any other keys present in the namespace
(erased by `clear`).  Byte-count details of `getBytes` are elided: a key
holds exactly the blob that was written. -/
structure Store where
  rAddr : Option (List Nat)
  rPin : Option (List Nat)
  extra : List (List Nat × List Nat)
  deriving DecidableEq, Repr

/-- Diagnostic and control events, one per relevant `Serial` message or
system action of the source. -/
inductive Ev where
  | help
  | info
  | scan
  | dbgDefaults
  | dbgSaved
  | errAddrNotSaved
  | errPinNotSaved
  | errInvalidAddr
  | infoNewAddr
  | errInvalidPin
  | errInvalidPinChar
  | infoNewPin
  | unknown
  | connLost
  | stateDisconnected
  | infoRestart
  | doRestart
  deriving DecidableEq, Repr

/-- Global state touched by the configuration commands: the in-memory
binding record, the persistent store, and the separate working globals
`addr` and `pin` that the boot-time connect loop uses. -/
structure SysState where
  bindRec : BindRecord
  store : Store
  workAddr : List Nat
  workPin : List Nat
  deriving DecidableEq, Repr

/-- Read-back verification loops of `saveBindRecord` (source lines
176-189).  Both loops run `i` from 0 to `sizeof(remoteAddr) - 1 = 5`
and print at most one warning each: the bound of the pin loop in the
source is `sizeof(BindRecord_t::remoteAddr)`, i.e. 6, although the pin
field is 9 bytes wide. -/
def saveCheckEvents (orig chk : BindRecord) : List Ev :=
  (if (List.range 6).any
      (fun i => chk.remoteAddr.getD i 0 != orig.remoteAddr.getD i 0)
   then [Ev.errAddrNotSaved] else []) ++
  (if (List.range 6).any
      (fun i => chk.remotePin.getD i 0 != orig.remotePin.getD i 0)
   then [Ev.errPinNotSaved] else [])

/-- Mismatch test over the first `n` bytes of two buffers. -/
def hasMismatch (n : Nat) (xs ys : List Nat) : Bool :=
  (List.range n).any (fun i => xs.getD i 0 != ys.getD i 0)

/-- Persisting the binding record (source `saveBindRecord`, lines
149-194): no-op on an invalid record; otherwise erase the whole
namespace, write both fields, read them back and run the verification
loops, then report the save. -/
def saveBindRecord (r : BindRecord) (s : Store) : Store × List Ev :=
  if r.valid = false then (s, [])
  else
    let cleared : Store := { rAddr := none, rPin := none, extra := [] }
    let s2 : Store :=
      { cleared with rAddr := some r.remoteAddr, rPin := some r.remotePin }
    let chk : BindRecord :=
      { valid := false,
        remoteAddr := s2.rAddr.getD (List.replicate 6 0),
        remotePin := s2.rPin.getD (List.replicate 9 0) }
    (s2, saveCheckEvents r chk ++ [Ev.dbgSaved])

/-- The compiled-in default binding (source `defaultBindRecord`, lines
202-212): broadcast address `FF:FF:FF:FF:FF:FF` and pin `0000`.  The
source copies 9 bytes from the 5-byte literal `"0000"`; the bytes past
the terminator are modelled as zero (any fixed value yields the same
claims, since the copy is deterministic). -/
def defaultBindRecord : BindRecord :=
  { valid := true,
    remoteAddr := btParse (str "FF:FF:FF:FF:FF:FF"),
    remotePin := str "0000" ++ List.replicate 5 0 }

/-- Loading the persisted binding (source `loadBindRecord`, lines
110-139): reset `valid`, read the address key or return early, read the
pin key or return early, then mark valid and refresh the working
globals. -/
def loadBindRecord (st : SysState) : SysState :=
  match st.store.rAddr with
  | none => { st with bindRec := { st.bindRec with valid := false } }
  | some a =>
    match st.store.rPin with
    | none =>
      { st with bindRec :=
        { st.bindRec with valid := false, remoteAddr := a } }
    | some p =>
      { st with
        bindRec := { valid := true, remoteAddr := a, remotePin := p },
        workAddr := a, workPin := p }

/-- Setting the remote address (source `setBindAddress`, lines 466-482):
reset `valid`, reject an argument failing `validateAddr`, otherwise
store the parsed bytes and mark valid. -/
def setBindAddress (b : BindRecord) (arg : List Nat) : BindRecord × List Ev :=
  let rec0 : BindRecord := { b with valid := false }
  if validateAddr arg = false then (rec0, [Ev.errInvalidAddr])
  else
    ({ rec0 with remoteAddr := btParse (cstr arg), valid := true },
     [Ev.infoNewAddr])

/-- Setting the remote pin (source `setBindPin`, lines 491-522): reset
`valid`; reject an empty argument; scan the first `maxlen = 8` bytes up
to a NUL and reject any non-digit; otherwise zero the 9-byte field,
copy at most 8 bytes, and mark valid. -/
def setBindPin (b : BindRecord) (arg : List Nat) : BindRecord × List Ev :=
  let rec0 : BindRecord := { b with valid := false }
  let a := cstr arg
  if a.isEmpty then (rec0, [Ev.errInvalidPin])
  else if !((a.take 8).all isDigitB) then (rec0, [Ev.errInvalidPinChar])
  else
    ({ rec0 with
        remotePin := a.take 8 ++ List.replicate (9 - min a.length 8) 0,
        valid := true },
     [Ev.infoNewPin])

/-- Boolean prefix test on byte lists (the `strstr(x, v) == x` idiom of
`parseCommand`): `strstr` returns its haystack exactly when the needle
occurs at the start. -/
def startsWith : List Nat → List Nat → Bool
  | [], _ => true
  | _ :: _, [] => false
  | p :: ps, x :: xs => p == x && startsWith ps xs

/-- The up-to-8-byte upper-cased command head `cmdUpper` built by
`parseCommand` (lines 531-538): copy at most 8 bytes of the line,
stopping at a NUL, upper-casing each. -/
def cmdUpperOf (line : List Nat) : List Nat :=
  ((line.take 8).takeWhile (fun b => b != 0)).map ucase

/-- The `SETADDR` branch of `parseCommand` (lines 562-569): run
`setBindAddress` on the argument and persist when the record came out
valid. -/
def setAddrBranch (st : SysState) (arg : List Nat) : SysState × List Ev :=
  let (r, evs) := setBindAddress st.bindRec arg
  if r.valid then
    let (s2, evs2) := saveBindRecord r st.store
    ({ st with bindRec := r, store := s2 }, evs ++ evs2)
  else ({ st with bindRec := r }, evs)

/-- The `SETPIN` branch of `parseCommand` (lines 571-578). -/
def setPinBranch (st : SysState) (arg : List Nat) : SysState × List Ev :=
  let (r, evs) := setBindPin st.bindRec arg
  if r.valid then
    let (s2, evs2) := saveBindRecord r st.store
    ({ st with bindRec := r, store := s2 }, evs ++ evs2)
  else ({ st with bindRec := r }, evs)

/-- Command dispatch (source `parseCommand`, lines 530-583): the
upper-cased 8-byte head is matched as a prefix against the verb table in
source order; `SETADDR` takes the text after the first 8 bytes of the
line (`strlen("SETADDR ") = 8`) and `SETPIN` the text after the first 7
(`strlen("SETPIN ") = 7`).  `SCAN` only drives the radio collaborator
and prints; it touches none of the modelled state (its locals shadow the
globals). -/
def parseCommand (st : SysState) (line : List Nat) : SysState × List Ev :=
  let cmdUpper := cmdUpperOf line
  if startsWith (str "HELP") cmdUpper then (st, [Ev.help])
  else if startsWith (str "INFO") cmdUpper then (st, [Ev.info])
  else if startsWith (str "SCAN") cmdUpper then (st, [Ev.scan])
  else if startsWith (str "CLEAR") cmdUpper then
    let (s2, evs) := saveBindRecord defaultBindRecord st.store
    ({ st with bindRec := defaultBindRecord, store := s2 },
     Ev.dbgDefaults :: evs)
  else if startsWith (str "SETADDR") cmdUpper then
    setAddrBranch st (line.drop 8)
  else if startsWith (str "SETPIN") cmdUpper then
    setPinBranch st (line.drop 7)
  else (st, [Ev.unknown])

/-- Events of one steady-state `loop` iteration in link mode with the
link down (source lines 598-611): report loss only when the connection
had been confirmed good, then always restart.  `ESP.restart()` does not
return, so the events of the iteration end at `doRestart`.  The byte
relay emits no diagnostics and is elided. -/
def loopStep (commandMode connectionGood connected : Bool) : List Ev :=
  if commandMode then []
  else if connected then []
  else
    (if connectionGood then [Ev.connLost, Ev.stateDisconnected] else []) ++
    [Ev.infoRestart, Ev.doRestart]

/-! Helper lemmas: byte values of the verb literals, prefix-match
characterisation, and branch-routing facts of `parseCommand`. -/

theorem str_HELP : str "HELP" = [72, 69, 76, 80] := by decide

theorem str_INFO : str "INFO" = [73, 78, 70, 79] := by decide

theorem str_SCAN : str "SCAN" = [83, 67, 65, 78] := by decide

theorem str_CLEAR : str "CLEAR" = [67, 76, 69, 65, 82] := by decide

theorem str_SETADDR : str "SETADDR" = [83, 69, 84, 65, 68, 68, 82] := by decide

theorem str_SETPIN : str "SETPIN" = [83, 69, 84, 80, 73, 78] := by decide

theorem str_SETPIN_sp : str "SETPIN " = [83, 69, 84, 80, 73, 78, 32] := by
  decide

theorem startsWith_iff (p l : List Nat) :
    startsWith p l = true ↔ ∃ t, l = p ++ t := by
  induction p generalizing l with
  | nil => simp [startsWith]
  | cons a ps ih =>
    cases l with
    | nil => simp [startsWith]
    | cons x xs =>
      simp only [startsWith, Bool.and_eq_true, beq_iff_eq, ih,
        List.cons_append, List.cons.injEq]
      constructor
      · rintro ⟨h1, t, h2⟩; exact ⟨t, h1.symm, h2⟩
      · rintro ⟨t, h1, h2⟩; exact ⟨h1.symm, t, h2⟩

theorem take8_setpin (c : Nat) (cs : List Nat) :
    (str "SETPIN " ++ c :: cs).take 8 = [83, 69, 84, 80, 73, 78, 32, c] := rfl

theorem drop7_setpin (arg : List Nat) :
    (str "SETPIN " ++ arg).drop 7 = arg := by
  cases arg <;> rfl

theorem cmdUpperOf_setpin_line (arg : List Nat) :
    ∃ t, cmdUpperOf (str "SETPIN " ++ arg) = str "SETPIN" ++ t := by
  cases arg with
  | nil => exact ⟨[32], rfl⟩
  | cons c cs =>
    by_cases hc : c = 0
    · subst hc
      exact ⟨[32], rfl⟩
    · refine ⟨[32, ucase c], ?_⟩
      have hc' : (c != 0) = true := by simpa using hc
      simp [cmdUpperOf, take8_setpin, List.takeWhile_cons, hc', str_SETPIN,
        ucase]

theorem parseCommand_setpin (st : SysState) (l : List Nat)
    (h : startsWith (str "SETPIN") (cmdUpperOf l) = true) :
    parseCommand st l = setPinBranch st (l.drop 7) := by
  obtain ⟨t, ht⟩ := (startsWith_iff _ _).1 h
  rw [str_SETPIN] at ht
  simp [parseCommand, ht, str_HELP, str_INFO, str_SCAN, str_CLEAR,
    str_SETADDR, str_SETPIN, startsWith]

theorem setPinBranch_frame (st : SysState) (arg : List Nat) :
    (setPinBranch st arg).1.workAddr = st.workAddr ∧
    (setPinBranch st arg).1.workPin = st.workPin := by
  unfold setPinBranch setBindPin saveBindRecord
  repeat' split <;> simp

theorem setAddrBranch_frame (st : SysState) (arg : List Nat) :
    (setAddrBranch st arg).1.workAddr = st.workAddr ∧
    (setAddrBranch st arg).1.workPin = st.workPin := by
  unfold setAddrBranch setBindAddress saveBindRecord
  repeat' split <;> simp

theorem parseCommand_shape (st : SysState) (l : List Nat) :
    ∃ b s2 evs, parseCommand st l = ({ st with bindRec := b, store := s2 }, evs) := by
  simp only [parseCommand, setAddrBranch, setPinBranch]
  repeat' split
  all_goals exact ⟨_, _, _, rfl⟩

theorem parseCommand_work_frame (st : SysState) (l : List Nat) :
    (parseCommand st l).1.workAddr = st.workAddr ∧
    (parseCommand st l).1.workPin = st.workPin := by
  obtain ⟨b, s2, evs, h⟩ := parseCommand_shape st l
  rw [h]
  exact ⟨rfl, rfl⟩

/-- Sample state for the concrete counterexamples and witnesses: the
default (valid) binding, an empty store, and the boot-time working
globals. -/
def sampleState : SysState :=
  { bindRec := defaultBindRecord,
    store := { rAddr := none, rPin := none, extra := [] },
    workAddr := List.replicate 6 255,
    workPin := str "0000" ++ List.replicate 5 0 }

theorem btParse_length (s : List Nat) : (btParse s).length = 6 := by
  unfold btParse parseAddr
  repeat' split <;> simp

theorem btToString_len6 (bs : List Nat) (h : bs.length = 6) :
    (btToString bs).length = 17 := by
  match bs, h with
  | [a, b, c, d, e, f], _ => rfl

/-- Read-back record differing from `writtenRec` at pin byte 2, inside
the range the verification loop does cover. -/
def readBackRec2 : BindRecord :=
  { valid := false, remoteAddr := List.replicate 6 255,
    remotePin := [49, 50, 0, 52, 53, 54, 55, 0, 0] }

/-- Record as written by `save` in the C2 exhibit: 7-digit pin `1234567`. -/
def writtenRec : BindRecord :=
  { valid := true, remoteAddr := List.replicate 6 255,
    remotePin := [49, 50, 51, 52, 53, 54, 55, 0, 0] }

/-- Read-back record of the C2 exhibit: identical except pin byte 6. -/
def readBackRec : BindRecord :=
  { valid := false, remoteAddr := List.replicate 6 255,
    remotePin := [49, 50, 51, 52, 53, 54, 0, 0, 0] }

/-! Claim theorems. -/

/-- C1: in steady-state link mode, when the link is found down the loop
emits exactly one restart, and it is the last action of the cycle (the
restart does not return, so it cannot repeat); a single "connection
lost" diagnostic is emitted exactly when the link had previously been
confirmed up, i.e. when `connectionGood` is set. -/
theorem loop_link_down_restart (g : Bool) :
    ((loopStep false g false).count Ev.doRestart = 1) ∧
    ((loopStep false g false).count Ev.connLost = if g then 1 else 0) ∧
    ((loopStep false g false).getLast? = some Ev.doRestart) := by
  cases g <;> decide

/-- C2: divergence exhibit for the read-back verification of `save`.
The written record holds the 7-digit pin `1234567`; the read-back record
differs from it at pin byte index 6 (inside the 9-byte field), yet the
verification loops of the source emit no warning, because the pin loop
is bounded by `sizeof(remoteAddr) = 6` instead of the pin field's 9; by
contrast a mismatch at pin byte 2, inside the covered range, does warn. -/
theorem save_readback_misses_pin_tail :
    (writtenRec.remotePin.getD 6 0 ≠ readBackRec.remotePin.getD 6 0) ∧
    (hasMismatch 9 writtenRec.remotePin readBackRec.remotePin = true) ∧
    (writtenRec.remoteAddr = readBackRec.remoteAddr) ∧
    (saveCheckEvents writtenRec readBackRec = []) ∧
    (saveCheckEvents writtenRec readBackRec2 = [Ev.errPinNotSaved]) := by
  decide

/-- C7: `save` on an invalid record is a no-op: the store is returned
unchanged and nothing is reported. -/
theorem saveBindRecord_invalid_noop (b : BindRecord) (s : Store)
    (h : b.valid = false) : saveBindRecord b s = (s, []) := by
  simp [saveBindRecord, h]

/-- C7 witness: `save` at a concrete invalid record and non-empty store. -/
theorem saveBindRecord_invalid_noop_witness :
    saveBindRecord
      { valid := false, remoteAddr := List.replicate 6 0,
        remotePin := List.replicate 9 0 }
      { rAddr := some [1, 2], rPin := none, extra := [] } =
    ({ rAddr := some [1, 2], rPin := none, extra := [] }, []) :=
  saveBindRecord_invalid_noop
    { valid := false, remoteAddr := List.replicate 6 0,
      remotePin := List.replicate 9 0 }
    { rAddr := some [1, 2], rPin := none, extra := [] } rfl

/-- C3: counterexample to "the record's valid flag has the same value it
had before the command".  From a state whose binding is valid, `SETPIN
12ab` is rejected with the bad-character error, yet the valid flag ends
up false, not at its prior value true. -/
theorem setpin_malformed_flag_cex :
    (sampleState.bindRec.valid = true) ∧
    ((parseCommand sampleState (str "SETPIN 12ab")).2 =
      [Ev.errInvalidPinChar]) ∧
    ((parseCommand sampleState (str "SETPIN 12ab")).1.bindRec.valid = false) := by
  decide

/-- C3 (amended): a `SETPIN` command whose argument is malformed (empty,
or with a non-digit among its first 8 bytes before the terminator) is
rejected with an error report; the stored address and pin bytes, the
persistent store and the working globals are unchanged, but the valid
flag is reset to false by the attempt, so it equals its prior value only
when that value was already false. -/
theorem setpin_malformed_rejected (st : SysState) (arg : List Nat)
    (h : (!(cstr arg).isEmpty && ((cstr arg).take 8).all isDigitB) = false) :
    ((parseCommand st (str "SETPIN " ++ arg)).1 =
      { st with bindRec := { st.bindRec with valid := false } }) ∧
    ((parseCommand st (str "SETPIN " ++ arg)).2 = [Ev.errInvalidPin] ∨
     (parseCommand st (str "SETPIN " ++ arg)).2 = [Ev.errInvalidPinChar]) := by
  obtain ⟨t, ht⟩ := cmdUpperOf_setpin_line arg
  have hroute : parseCommand st (str "SETPIN " ++ arg) =
      setPinBranch st ((str "SETPIN " ++ arg).drop 7) := by
    refine parseCommand_setpin st _ ?_
    rw [ht]
    exact (startsWith_iff _ _).2 ⟨t, rfl⟩
  rw [hroute, drop7_setpin]
  by_cases h1 : (cstr arg).isEmpty = true
  · constructor
    · simp [setPinBranch, setBindPin, h1]
    · exact Or.inl (by simp [setPinBranch, setBindPin, h1])
  · have h1' : (cstr arg).isEmpty = false := by
      simpa using h1
    have h2 : ((cstr arg).take 8).all isDigitB = false := by
      rcases Bool.and_eq_false_iff.1 h with hx | hx
      · exact absurd (by simpa using hx) h1
      · exact hx
    constructor
    · simp [setPinBranch, setBindPin, h1', h2]
    · exact Or.inr (by simp [setPinBranch, setBindPin, h1', h2])

/-- C3 witness: the amended statement at the concrete rejected command
`SETPIN 12ab` from the sample state. -/
theorem setpin_malformed_rejected_witness :
    ((parseCommand sampleState (str "SETPIN " ++ str "12ab")).1 =
      { sampleState with
        bindRec := { sampleState.bindRec with valid := false } }) ∧
    ((parseCommand sampleState (str "SETPIN " ++ str "12ab")).2 =
      [Ev.errInvalidPin] ∨
     (parseCommand sampleState (str "SETPIN " ++ str "12ab")).2 =
      [Ev.errInvalidPinChar]) :=
  setpin_malformed_rejected sampleState (str "12ab") (by decide)

/-- C6: counterexample to "no line whose 8th character is not a space
yields a successfully parsed address argument".  In the line
`SETADDRX01:23:45:67:89:AB` the 8th character is `X` (byte 88, not the
space 32), yet the verb table's prefix match accepts the head and the
text after the first 8 bytes parses as a valid address: the binding
becomes valid with the new address, which is also persisted. -/
theorem setaddr_no_space_cex :
    ((str "SETADDRX01:23:45:67:89:AB").getD 7 0 = 88) ∧
    ((parseCommand sampleState (str "SETADDRX01:23:45:67:89:AB")).1.bindRec.valid
      = true) ∧
    ((parseCommand sampleState (str "SETADDRX01:23:45:67:89:AB")).1.bindRec.remoteAddr
      = [1, 35, 69, 103, 137, 171]) ∧
    ((parseCommand sampleState (str "SETADDRX01:23:45:67:89:AB")).1.store.rAddr
      = some [1, 35, 69, 103, 137, 171]) := by decide

/-- C6 (amended): whenever the upper-cased 8-byte head of the line has
`SETADDR` as a prefix — the 8th character is skipped without being
checked, so it need not be a space — the `SETADDR` branch runs on
exactly the text after the first 8 bytes of the line. -/
theorem setaddr_arg_after_eight (st : SysState) (l : List Nat)
    (h : startsWith (str "SETADDR") (cmdUpperOf l) = true) :
    parseCommand st l = setAddrBranch st (l.drop 8) := by
  obtain ⟨t, ht⟩ := (startsWith_iff _ _).1 h
  rw [str_SETADDR] at ht
  simp [parseCommand, ht, str_HELP, str_INFO, str_SCAN, str_CLEAR,
    str_SETADDR, startsWith]

/-- C6 witness: the amended routing at a concrete line whose 8th byte is
not a space. -/
theorem setaddr_arg_after_eight_witness :
    parseCommand sampleState (str "SETADDRX01:23:45:67:89:AB") =
      setAddrBranch sampleState ((str "SETADDRX01:23:45:67:89:AB").drop 8) :=
  setaddr_arg_after_eight sampleState (str "SETADDRX01:23:45:67:89:AB")
    (by decide)

/-- C4: for every address C-string, `validateAddr` holds iff lower-casing
the string, parsing it, rendering it back and lower-casing the rendering
yields exactly the lower-cased string; in particular any accepted
string has exactly 17 bytes, well-formed addresses of either case pass,
and wrong length, wrong separators, out-of-range groups and non-hex
digits are rejected. -/
theorem validateAddr_roundtrip (a : List Nat) (h : cstr a = a) :
    (validateAddr a = true ↔
      lowerStr (btToString (btParse (lowerStr a))) = lowerStr a) ∧
    (validateAddr a = true → a.length = 17) ∧
    (validateAddr (str "01:23:45:67:89:ab") = true) ∧
    (validateAddr (str "01:23:45:67:89:AB") = true) ∧
    (validateAddr (str "01:23:45:67:89") = false) ∧
    (validateAddr (str "01-23-45-67-89-ab") = false) ∧
    (validateAddr (str "256:3:45:67:89:ab") = false) ∧
    (validateAddr (str "0g:23:45:67:89:ab") = false) := by
  have hiff : validateAddr a = true ↔
      lowerStr (btToString (btParse (lowerStr a))) = lowerStr a := by
    unfold validateAddr
    rw [h]
    exact beq_iff_eq
  refine ⟨hiff, ?_, by decide, by decide, by decide, by decide, by decide,
    by decide⟩
  intro hv
  have h2 := hiff.1 hv
  calc a.length = (lowerStr a).length := by simp [lowerStr]
    _ = (lowerStr (btToString (btParse (lowerStr a)))).length := by rw [h2]
    _ = (btToString (btParse (lowerStr a))).length := by simp [lowerStr]
    _ = 17 := btToString_len6 _ (btParse_length _)

/-- C4 witness: the round-trip law at the concrete well-formed address
`01:23:45:67:89:ab`. -/
theorem validateAddr_roundtrip_witness :
    validateAddr (str "01:23:45:67:89:ab") = true ↔
      lowerStr (btToString (btParse (lowerStr (str "01:23:45:67:89:ab")))) =
        lowerStr (str "01:23:45:67:89:ab") :=
  (validateAddr_roundtrip (str "01:23:45:67:89:ab") (by decide)).1

/-- C5: `setBindPin` succeeds (the record comes out valid) exactly when
the argument C-string is non-empty and every byte among its first 8, up
to the terminator, is an ASCII decimal digit; on success the 9-byte pin
field holds the argument truncated to 8 bytes followed by zeros, on
failure the pin bytes are untouched, and the address bytes are never
touched. -/
theorem setBindPin_spec (b : BindRecord) (arg : List Nat) :
    ((setBindPin b arg).1.valid =
      (!(cstr arg).isEmpty && ((cstr arg).take 8).all isDigitB)) ∧
    ((setBindPin b arg).1.remotePin =
      if (!(cstr arg).isEmpty && ((cstr arg).take 8).all isDigitB) = true
      then (cstr arg).take 8 ++ List.replicate (9 - min (cstr arg).length 8) 0
      else b.remotePin) ∧
    ((setBindPin b arg).1.remoteAddr = b.remoteAddr) := by
  by_cases h1 : (cstr arg).isEmpty = true
  · simp [setBindPin, h1]
  · have h1' : (cstr arg).isEmpty = false := by simpa using h1
    by_cases h2 : ((cstr arg).take 8).all isDigitB = true
    · simp [setBindPin, h1', h2]
    · have h2' : ((cstr arg).take 8).all isDigitB = false := by simpa using h2
      simp [setBindPin, h1', h2']

/-- C8: `load` marks the record valid exactly when both keys are present;
when the address key is absent it returns early with only the valid flag
cleared, independently of whatever the pin key holds (the other key is
not read and no partial data is merged); when both keys are present both
fields come from the store and the working globals are refreshed. -/
theorem loadBindRecord_spec (st : SysState) :
    ((loadBindRecord st).bindRec.valid =
      (st.store.rAddr.isSome && st.store.rPin.isSome)) ∧
    (st.store.rAddr = none →
      ∀ p, loadBindRecord { st with store := { st.store with rPin := p } } =
        { st with
          store := { st.store with rPin := p },
          bindRec := { st.bindRec with valid := false } }) ∧
    (∀ a p, st.store.rAddr = some a → st.store.rPin = some p →
      loadBindRecord st =
        { st with
          bindRec := { valid := true, remoteAddr := a, remotePin := p },
          workAddr := a, workPin := p }) := by
  refine ⟨?_, ?_, ?_⟩
  · rcases ha : st.store.rAddr with _ | a <;>
      rcases hp : st.store.rPin with _ | p <;>
        simp [loadBindRecord, ha, hp]
  · intro ha p
    simp [loadBindRecord, ha]
  · intro a p ha hp
    simp [loadBindRecord, ha, hp]

/-- C9: the `CLEAR` command is idempotent: running it from the state it
produced changes nothing, and the state it produces holds the default
binding both in memory and in the store — broadcast address
`ff:ff:ff:ff:ff:ff`, code `0000`, valid record — with every other key of
the namespace erased. -/
theorem clear_idempotent (st : SysState) :
    ((parseCommand (parseCommand st (str "CLEAR")).1 (str "CLEAR")).1 =
      (parseCommand st (str "CLEAR")).1) ∧
    ((parseCommand st (str "CLEAR")).1.bindRec = defaultBindRecord) ∧
    (defaultBindRecord.valid = true) ∧
    ((parseCommand st (str "CLEAR")).1.store.rAddr =
      some (List.replicate 6 255)) ∧
    ((parseCommand st (str "CLEAR")).1.store.rPin =
      some (str "0000" ++ List.replicate 5 0)) ∧
    ((parseCommand st (str "CLEAR")).1.store.extra = []) ∧
    (btToString defaultBindRecord.remoteAddr = str "ff:ff:ff:ff:ff:ff") := by
  exact ⟨rfl, rfl, rfl, rfl, rfl, rfl, rfl⟩

/-- C10: a successful `SETADDR` or `SETPIN` command leaves the working
globals `addr` and `pin` — the connection target and auth code the boot
sequence uses — unchanged: only the binding record and the persistent
store are mutated, so the new binding is used only after a restart
reloads it. -/
theorem setcmd_work_globals_frame (st : SysState) (l : List Nat)
    (_h : startsWith (str "SETADDR") (cmdUpperOf l) = true ∨
         startsWith (str "SETPIN") (cmdUpperOf l) = true)
    (_hok : (parseCommand st l).1.bindRec.valid = true) :
    ((parseCommand st l).1.workAddr = st.workAddr) ∧
    ((parseCommand st l).1.workPin = st.workPin) :=
  parseCommand_work_frame st l

/-- C10 witness: the frame property at the concrete successful command
`SETPIN 1234` from the sample state. -/
theorem setcmd_work_globals_frame_witness :
    ((parseCommand sampleState (str "SETPIN 1234")).1.workAddr =
      sampleState.workAddr) ∧
    ((parseCommand sampleState (str "SETPIN 1234")).1.workPin =
      sampleState.workPin) :=
  setcmd_work_globals_frame sampleState (str "SETPIN 1234")
    (Or.inr (by decide)) (by decide)

end BtProxy
